import Mathlib

/-!
Shallow embedding of the web-crawler repository (spiders/count_spider.py,
spiders/fast_spider.py) together with proofs about its crawl logic.

URLs are modelled as parsed urls: a netloc (host) and a path, matching the
fields of `urllib.parse.urlparse` that the spiders consult.  A site graph is
a function from a url to the result of fetching it (`none` models a failed
request, routed to the spider errback).  The scrapy engine is modelled as a
sequential fuel-bounded loop over a queue of pending requests: callbacks run
one at a time on the reactor thread, so sequential processing is faithful.
Python-level exceptions of the census spider (a NameError from an
unimported name, a division by zero) are made explicit by an Except layer
over the pure state logic.
-/

namespace WebCrawler

/-- Parsed URL as used by the spiders: netloc (host) and path. -/
structure Url where
  netloc : String
  path : String
deriving DecidableEq, Repr

/-! ## Census spider (spiders/count_spider.py, class CountSpider) -/

/-- CountSpider.MAX_PAGES, the fixed census cap. -/
def MAX_PAGES : Nat := 1000

/-- The CloseSpider reason built in CountSpider.parse from MAX_PAGES. -/
def capMsg : String := "Reached maximum limit of " ++ toString MAX_PAGES ++ " pages"

/-- Increment of a counter entry in an insertion-ordered association list,
modelling `defaultdict(int)` / `Counter` bumping (`d[k] += 1`). -/
def bumpNat (k : Nat) : List (Nat × Nat) → List (Nat × Nat)
  | [] => [(k, 1)]
  | (k1, c) :: rest => if k = k1 then (k1, c + 1) :: rest else (k1, c) :: bumpNat k rest

/-- Counter bump keyed by strings, for `url_counter[path] += 1`. -/
def bumpStr (k : String) : List (String × Nat) → List (String × Nat)
  | [] => [(k, 1)]
  | (k1, c) :: rest => if k = k1 then (k1, c + 1) :: rest else (k1, c) :: bumpStr k rest

/-- Assignment `d[k] = v` on an insertion-ordered association list. -/
def setUrl (k : Url) (v : Nat) : List (Url × Nat) → List (Url × Nat)
  | [] => [(k, v)]
  | (k1, v1) :: rest => if k = k1 then (k1, v) :: rest else (k1, v1) :: setUrl k v rest

/-- Lookup with the `defaultdict(int)` default of 0. -/
def lookupD (k : Url) (l : List (Url × Nat)) : Nat :=
  ((l.find? fun p => p.1 == k).map Prod.snd).getD 0

/-- Mutable state of a CountSpider instance (the fields of `__init__` that
the crawl logic reads or writes; timing fields are omitted). -/
structure CountState where
  foundUrls : List Url
  urlIndex : List (Url × Nat)
  urlLevels : List (Url × Nat)
  levelCounts : List (Nat × Nat)
  urlCounter : List (String × Nat)
  currentIndex : Nat
  maxLevelFound : Nat
  stoppedReason : Option String
deriving DecidableEq

/-- The spider state that the initializers of CountSpider.__init__
describe: `url_levels[url] = 0`, `level_counts[0] = 1`, the seed not yet
placed in `found_urls` nor given an index.  In the program as shipped this
state is never reached: line 35 evaluates `time.time()` and the module
never imports `time`, so a NameError is raised first — the constructor as
executed is `censusInitE` below. -/
def censusInit (url : Url) : CountState :=
  { foundUrls := []
    urlIndex := []
    urlLevels := [(url, 0)]
    levelCounts := [(0, 1)]
    urlCounter := []
    currentIndex := 1
    maxLevelFound := 0
    stoppedReason := none }

/-- The recording block CountSpider.parse runs for a url not in `found_urls`:
add to the set, assign the next discovery index, count the path, fix the
level and bump its count, update the maximum level. -/
def addUrl (s : CountState) (u : Url) (level : Nat) : CountState :=
  { s with
    foundUrls := s.foundUrls ++ [u]
    urlIndex := s.urlIndex ++ [(u, s.currentIndex)]
    currentIndex := s.currentIndex + 1
    urlCounter := bumpStr u.path s.urlCounter
    urlLevels := setUrl u level s.urlLevels
    levelCounts := bumpNat level s.levelCounts
    maxLevelFound := max s.maxLevelFound level }

/-- The `for href in response.css(...)` loop of CountSpider.parse: each link
whose host equals the allowed domain, that is not yet found, and while the
cap is not reached, is recorded at `next_level`; a request is yielded for it
only if the cap is still not reached after recording. -/
def censusLoop (ad : String) (nextLevel : Nat) :
    CountState → List Url → CountState × List (Url × Nat)
  | s, [] => (s, [])
  | s, url :: rest =>
    if url.netloc = ad ∧ url ∉ s.foundUrls ∧ s.foundUrls.length < MAX_PAGES then
      let s1 := addUrl s url nextLevel
      let out := censusLoop ad nextLevel s1 rest
      if s1.foundUrls.length < MAX_PAGES then
        (out.1, (url, nextLevel) :: out.2)
      else
        out
    else
      censusLoop ad nextLevel s rest

/-- CountSpider.parse on a response at `level` whose page yields `links`.
Returns the new state, the yielded requests, and whether CloseSpider was
raised.  The cap check precedes recording of the response url; the link
loop runs only while under the cap. -/
def censusParse (ad : String) (s : CountState) (respUrl : Url) (level : Nat)
    (links : List Url) : CountState × List (Url × Nat) × Bool :=
  if MAX_PAGES ≤ s.foundUrls.length then
    if s.stoppedReason = none then
      ({ s with stoppedReason := some capMsg }, [], true)
    else
      (s, [], false)
  else
    let s1 := if respUrl ∈ s.foundUrls then s else addUrl s respUrl level
    if s1.foundUrls.length < MAX_PAGES then
      let out := censusLoop ad (level + 1) s1 links
      (out.1, out.2, false)
    else
      (s1, [], false)

/-- The scrapy engine driving CountSpider, as a sequential fuel-bounded loop:
pending requests are processed in order; a failed fetch goes to the errback
and changes no state; CloseSpider stops the run with the captured reason;
an exhausted queue (or an externally stopped engine, fuel 0) closes with the
default reason "finished".  The third component is the trace of all yielded
requests. -/
def censusRun (site : Url → Option (List Url)) (ad : String) :
    Nat → CountState → List (Url × Nat) → List (Url × Nat) →
    CountState × String × List (Url × Nat)
  | 0, s, _, trace => (s, "finished", trace)
  | _ + 1, s, [], trace => (s, "finished", trace)
  | fuel + 1, s, (u, level) :: rest, trace =>
    match site u with
    | none => censusRun site ad fuel s rest trace
    | some links =>
      let out := censusParse ad s u level links
      if out.2.2 then
        (out.1, out.1.stoppedReason.getD "shutdown", trace)
      else
        censusRun site ad fuel out.1 (rest ++ out.2.1) (trace ++ out.2.1)

/-- Insertion step of a sort by the first (index) component, modelling
`sorted(..., key=lambda x: x[0])` on the index/url/level triples. -/
def insertByIdx (x : Nat × Url × Nat) : List (Nat × Url × Nat) → List (Nat × Url × Nat)
  | [] => [x]
  | y :: ys => if x.1 ≤ y.1 then x :: y :: ys else y :: insertByIdx x ys

/-- Sort by the first (index) component. -/
def sortByIdx : List (Nat × Url × Nat) → List (Nat × Url × Nat)
  | [] => []
  | x :: xs => insertByIdx x (sortByIdx xs)

/-- The `url_stats` record assembled by CountSpider.spider_closed
(execution_time and the derived top_paths ranking are omitted; level keys
are kept as numbers rather than their decimal strings). -/
structure CensusStats where
  totalUniqueUrls : Nat
  urlCounter : List (String × Nat)
  maxLevel : Nat
  levelStats : List (Nat × Nat × ℚ)
  orderedUrls : List (Nat × Url × Nat)
  reachedLimit : Bool
  reason : String
deriving DecidableEq

/-- The `url_stats` record that the statistics-assembly lines of
CountSpider.spider_closed describe: level statistics as percentages of
`len(found_urls)`, the url index sorted into `ordered_urls`, and
`stopped_reason` if set, else the engine close reason.  In the program as
shipped this record is never built: line 126 evaluates `time.time()` with
`time` unimported (NameError), and with no found urls line 132 would
divide by zero — the handler as executed is `spiderClosedE` below. -/
def spiderClosed (s : CountState) (closeReason : String) : CensusStats :=
  let total := s.foundUrls.length
  { totalUniqueUrls := total
    urlCounter := s.urlCounter
    maxLevel := s.maxLevelFound
    levelStats := s.levelCounts.map fun p => (p.1, p.2, ((p.2 : ℚ) / (total : ℚ)) * 100)
    orderedUrls := sortByIdx (s.urlIndex.map fun p => (p.2, p.1, lookupD p.1 s.urlLevels))
    reachedLimit := decide (MAX_PAGES ≤ total)
    reason := s.stoppedReason.getD closeReason }

/-- A complete census crawl: the spider is constructed on the seed url, the
allowed domain is the seed's netloc (`urlparse(url).netloc`), and the engine
starts from the single request for the seed at level 0. -/
def censusCrawl (site : Url → Option (List Url)) (seed : Url) (fuel : Nat) :
    CountState × String × List (Url × Nat) :=
  censusRun site seed.netloc fuel (censusInit seed) [(seed, 0)] []

/-- The `url_stats` record that `spiderClosed` would assemble for a
complete census crawl; `censusCrawlE` below is the crawl as executed,
crashes included. -/
def censusResult (site : Url → Option (List Url)) (seed : Url) (fuel : Nat) : CensusStats :=
  spiderClosed (censusCrawl site seed fuel).1 (censusCrawl site seed fuel).2.1

/-! ### The census spider as executed: Python-level exceptions

count_spider.py calls `time.time()` (lines 35 and 126) but `time` is not
among the names its module brings in, so both CountSpider.__init__ and
CountSpider.spider_closed raise NameError before the state and statistics
modelled above are ever produced.  The layer below makes these exceptions
explicit. -/

/-- Python exceptions the census spider can raise. -/
inductive PyError where
  | nameError (missing : String)
  | zeroDivisionError
deriving DecidableEq, Repr

/-- Top-level names that the statements at the head of
spiders/count_spider.py bring into the module namespace (scrapy, the two
url helpers, the two collections, the scrapy signals and CloseSpider).
The name `time` is absent. -/
def countSpiderModuleNames : List String :=
  ["scrapy", "urlparse", "urljoin", "Counter", "defaultdict", "signals", "CloseSpider"]

/-- CountSpider.__init__ as executed: line 35 evaluates `time.time()`, and
`time` is not among the module names, so a NameError is raised before the
remaining initializers (including lines 42-43) run; were the name
available, construction would produce `censusInit`. -/
def censusInitE (url : Url) : Except PyError CountState :=
  if "time" ∈ countSpiderModuleNames then Except.ok (censusInit url)
  else Except.error (PyError.nameError "time")

/-- CountSpider.spider_closed as executed: line 126 evaluates `time.time()`
(NameError, same missing name) before the statistics of lines 128-165 are
assembled, and line 132 divides by `len(found_urls)` — a ZeroDivisionError
when no url was found; past both, it would produce `spiderClosed`. -/
def spiderClosedE (s : CountState) (closeReason : String) : Except PyError CensusStats :=
  if "time" ∉ countSpiderModuleNames then Except.error (PyError.nameError "time")
  else if s.foundUrls.length = 0 then Except.error PyError.zeroDivisionError
  else Except.ok (spiderClosed s closeReason)

/-- A census crawl as actually executed: spider construction, then the
engine run, then result assembly, each stage propagating exceptions. -/
def censusCrawlE (site : Url → Option (List Url)) (seed : Url) (fuel : Nat) :
    Except PyError CensusStats :=
  (censusInitE seed).bind fun st0 =>
    let out := censusRun site seed.netloc fuel st0 [(seed, 0)] []
    spiderClosedE out.1 out.2.1

/-! ### Concrete census scenario: a single page with no outbound links -/

/-- Seed url used in the concrete scenarios. -/
def seed0 : Url := { netloc := "example.com", path := "/" }

/-- A same-domain child page of the seed. -/
def child1 : Url := { netloc := "example.com", path := "/a" }

/-- A second same-domain child page of the seed. -/
def child2 : Url := { netloc := "example.com", path := "/b" }

/-- Site graph of scenario B: the seed page exists and has no links. -/
def site0 : Url → Option (List Url) := fun u => if u = seed0 then some [] else none

/-- Census site where the seed links to one same-domain child. -/
def siteB : Url → Option (List Url) :=
  fun u => if u = seed0 then some [child1] else if u = child1 then some [] else none

/-- Full census crawl of `site0` from the seed (crawl state machine only;
`censusCrawlE site0 seed0 4` is the crawl as executed). -/
def run0 : CountState × String × List (Url × Nat) := censusCrawl site0 seed0 4


/-! ## Content spider (spiders/fast_spider.py, class FastSpider) -/

/-- Python substring test `needle in hay` on character lists: needle starts
the haystack. -/
def charsStart : List Char → List Char → Bool
  | [], _ => true
  | _ :: _, [] => false
  | a :: as, b :: bs => a == b && charsStart as bs

/-- Python substring test `needle in hay` on character lists: needle occurs
contiguously somewhere in the haystack. -/
def charsSub (n : List Char) : List Char → Bool
  | [] => charsStart n []
  | c :: cs => charsStart n (c :: cs) || charsSub n cs

/-- Python string containment `needle in hay`, as used by the link filter
`self.allowed_domain in urlparse(url).netloc`. -/
def strIn (needle hay : String) : Bool := charsSub needle.data hay.data

/-- Result of FastSpider.extract_content on a successfully fetched page:
the fields the crawl logic consumes.  A page whose extraction raises is
modelled by `none` at the call site. -/
structure ContentPage where
  title : String
  links : List Url
deriving DecidableEq

/-- Mutable state of a FastSpider instance: the visited set, the page
counter, and the persisted artifacts (content files by name, index entries
as number/title/url/filename, and the error log). -/
structure FastState where
  visitedUrls : List Url
  pagesCrawled : Nat
  files : List String
  indexEntries : List (Nat × String × Url × String)
  errorLog : List String
deriving DecidableEq

/-- FastSpider.__init__: empty visited set, zero pages, no artifacts. -/
def fastInit : FastState :=
  { visitedUrls := [], pagesCrawled := 0, files := [], indexEntries := [], errorLog := [] }

/-- Filename `page_{n}.txt` used by FastSpider.parse for the n-th page. -/
def pageFileName (n : Nat) : String := "page_" ++ toString n ++ ".txt"

/-- FastSpider.parse on a response for `u` whose extraction result is `pg`
(`none` when extract_content returned None).  Returns the new state, the
yielded requests, and whether the engine was asked to close with reason
"Reached page limit".  The limit check precedes the visited check; a page
is persisted, indexed and marked visited only when extraction succeeded;
links are followed only while under the limit, filtered by the visited set
and by substring containment of the allowed domain in the link host. -/
def fastParse (pl : Nat) (ad : String) (s : FastState) (u : Url)
    (pg : Option ContentPage) : FastState × List Url × Bool :=
  if pl ≤ s.pagesCrawled then
    (s, [], true)
  else if u ∈ s.visitedUrls then
    (s, [], false)
  else
    match pg with
    | none =>
      ({ s with errorLog :=
          s.errorLog ++ ["Content extraction error on " ++ u.netloc ++ u.path] }, [], false)
    | some content =>
      let s1 : FastState :=
        { s with
          files := s.files ++ [pageFileName (s.pagesCrawled + 1)]
          indexEntries := s.indexEntries ++
            [(s.pagesCrawled + 1, content.title, u, pageFileName (s.pagesCrawled + 1))]
          visitedUrls := s.visitedUrls ++ [u]
          pagesCrawled := s.pagesCrawled + 1 }
      let reqs :=
        if s1.pagesCrawled < pl then
          content.links.filter fun l => decide (l ∉ s1.visitedUrls) && strIn ad l.netloc
        else []
      (s1, reqs, false)

/-- The scrapy engine driving FastSpider, sequential and fuel-bounded like
`censusRun`: a failed fetch goes to the errback (which only logs), a
close_spider call ends the run with reason "Reached page limit", and an
exhausted queue closes with the default reason "finished".  The third
component is the trace of all yielded request urls. -/
def fastRun (site : Url → Option (Option ContentPage)) (pl : Nat) (ad : String) :
    Nat → FastState → List Url → List Url → FastState × String × List Url
  | 0, s, _, trace => (s, "finished", trace)
  | _ + 1, s, [], trace => (s, "finished", trace)
  | fuel + 1, s, u :: rest, trace =>
    match site u with
    | none =>
      fastRun site pl ad fuel
        { s with errorLog := s.errorLog ++ ["Request failed: " ++ u.netloc ++ u.path] }
        rest trace
    | some pg =>
      let out := fastParse pl ad s u pg
      if out.2.2 then
        (out.1, "Reached page limit", trace)
      else
        fastRun site pl ad fuel out.1 (rest ++ out.2.1) (trace ++ out.2.1)

/-- A complete content-mode crawl: the spider is constructed on the seed
url with the given page_limit, the allowed domain is the seed's netloc, and
the engine starts from the single request for the seed. -/
def fastCrawl (site : Url → Option (Option ContentPage)) (pl : Nat) (seed : Url)
    (fuel : Nat) : FastState × String × List Url :=
  fastRun site pl seed.netloc fuel fastInit [seed] []

/-! ### Concrete content-mode scenarios -/

/-- Content-mode site where the seed page is fetched but its extraction
fails (extract_content returns None). -/
def fsite0 : Url → Option (Option ContentPage) :=
  fun u => if u = seed0 then some none else none

/-- Content crawl of `fsite0` with page_limit 5. -/
def frun0 : FastState × String × List Url := fastCrawl fsite0 5 seed0 4

/-- A same-registrable-name but different host: its netloc contains
"example.com" as a substring without being equal to it. -/
def evil0 : Url := { netloc := "evilexample.com", path := "/" }

/-- Content-mode site where the seed page links to `evil0`, whose host is
not the allowed domain but contains it as a substring. -/
def fsite1 : Url → Option (Option ContentPage) :=
  fun u =>
    if u = seed0 then some (some { title := "seed", links := [evil0] })
    else if u = evil0 then some (some { title := "evil", links := [] })
    else none

/-- Content crawl of `fsite1` with page_limit 5. -/
def frun1 : FastState × String × List Url := fastCrawl fsite1 5 seed0 6

/-- Content-mode site with a single page and no links. -/
def fsite2 : Url → Option (Option ContentPage) :=
  fun u => if u = seed0 then some (some { title := "only", links := [] }) else none

/-- Content crawl of `fsite2` with page_limit 1: the bound is hit on the
last response, with no further response left to observe it. -/
def frun2 : FastState × String × List Url := fastCrawl fsite2 1 seed0 4

/-- Content-mode site where the seed links to two same-domain pages. -/
def fsite3 : Url → Option (Option ContentPage) :=
  fun u =>
    if u = seed0 then some (some { title := "seed", links := [child1, child2] })
    else if u = child1 then some (some { title := "a", links := [] })
    else if u = child2 then some (some { title := "b", links := [] })
    else none

/-- Content crawl of `fsite3` with page_limit 2: the response for `child2`
arrives after the bound is hit, so close_spider fires. -/
def frun3 : FastState × String × List Url := fastCrawl fsite3 2 seed0 8

/-! ## Invariants of the census spider state -/

theorem addUrl_foundUrls (s : CountState) (u : Url) (level : Nat) :
    (addUrl s u level).foundUrls = s.foundUrls ++ [u] := rfl

theorem addUrl_stoppedReason (s : CountState) (u : Url) (level : Nat) :
    (addUrl s u level).stoppedReason = s.stoppedReason := rfl

theorem bumpNat_sum (k : Nat) (l : List (Nat × Nat)) :
    ((bumpNat k l).map Prod.snd).sum = (l.map Prod.snd).sum + 1 := by
  induction l with
  | nil => simp [bumpNat]
  | cons p rest ih =>
    obtain ⟨k1, c⟩ := p
    by_cases h : k = k1 <;> simp [bumpNat, h, ih] <;> omega

/-- Representation invariant of the CountSpider state: the url index lists
exactly the found urls in order, with discovery indices forming the
contiguous range 1..N; the found set has no duplicates and respects the
cap; the level counts sum to one more than the number of found urls (the
seed level is pre-counted by `__init__` and counted again on its visit). -/
structure CInv (s : CountState) : Prop where
  idx_fst : s.urlIndex.map Prod.fst = s.foundUrls
  idx_snd : s.urlIndex.map Prod.snd = List.range' 1 s.foundUrls.length
  cur : s.currentIndex = s.foundUrls.length + 1
  nodup : s.foundUrls.Nodup
  cap : s.foundUrls.length ≤ MAX_PAGES
  lvl_sum : (s.levelCounts.map Prod.snd).sum = s.foundUrls.length + 1

theorem censusInit_CInv (url : Url) : CInv (censusInit url) := by
  constructor <;> simp [censusInit]

theorem addUrl_CInv {s : CountState} {u : Url} {level : Nat} (h : CInv s)
    (hu : u ∉ s.foundUrls) (hlen : s.foundUrls.length < MAX_PAGES) :
    CInv (addUrl s u level) := by
  constructor
  · simp [addUrl, h.idx_fst]
  · simp only [addUrl, List.map_append, List.map_cons, List.map_nil, h.idx_snd, h.cur,
      List.length_append, List.length_cons, List.length_nil]
    rw [List.range'_concat]
    simp [Nat.add_comm]
  · simp [addUrl, h.cur]
  · simp [addUrl, List.nodup_append, h.nodup, hu]
  · simpa [addUrl] using hlen
  · simp [addUrl, bumpNat_sum, h.lvl_sum]

theorem censusLoop_mono (ad : String) (nl : Nat) :
    ∀ (links : List Url) (s : CountState) (x : Url), x ∈ s.foundUrls →
      x ∈ (censusLoop ad nl s links).1.foundUrls := by
  intro links
  induction links with
  | nil => intro s x hx; simpa [censusLoop] using hx
  | cons url rest ih =>
    intro s x hx
    by_cases hc : url.netloc = ad ∧ url ∉ s.foundUrls ∧ s.foundUrls.length < MAX_PAGES
    · simp only [censusLoop, if_pos hc]
      have hx1 : x ∈ (addUrl s url nl).foundUrls := by
        simp [addUrl_foundUrls, hx]
      have := ih (addUrl s url nl) x hx1
      split <;> simpa using this
    · simpa [censusLoop, if_neg hc] using ih s x hx

theorem censusLoop_reqs (ad : String) (nl : Nat) :
    ∀ (links : List Url) (s : CountState) (p : Url × Nat),
      p ∈ (censusLoop ad nl s links).2 →
      p.1 ∉ s.foundUrls ∧ p.1 ∈ (censusLoop ad nl s links).1.foundUrls ∧
        p.2 = nl ∧ p.1.netloc = ad := by
  intro links
  induction links with
  | nil => intro s p hp; simp [censusLoop] at hp
  | cons url rest ih =>
    intro s p hp
    by_cases hc : url.netloc = ad ∧ url ∉ s.foundUrls ∧ s.foundUrls.length < MAX_PAGES
    · simp only [censusLoop, if_pos hc] at hp ⊢
      have hmem : url ∈ (addUrl s url nl).foundUrls := by simp [addUrl_foundUrls]
      by_cases hlt : (addUrl s url nl).foundUrls.length < MAX_PAGES
      · simp only [if_pos hlt] at hp ⊢
        rcases List.mem_cons.mp hp with hh | ht
        · subst hh
          exact ⟨hc.2.1, censusLoop_mono ad nl rest _ url hmem, rfl, hc.1⟩
        · rcases ih (addUrl s url nl) p ht with ⟨h1, h2, h3, h4⟩
          refine ⟨fun hx => h1 ?_, h2, h3, h4⟩
          simp [addUrl_foundUrls, hx]
      · simp only [if_neg hlt] at hp ⊢
        rcases ih (addUrl s url nl) p hp with ⟨h1, h2, h3, h4⟩
        refine ⟨fun hx => h1 ?_, h2, h3, h4⟩
        simp [addUrl_foundUrls, hx]
    · simp only [censusLoop, if_neg hc] at hp ⊢
      exact ih s p hp

theorem censusLoop_reqs_nodup (ad : String) (nl : Nat) :
    ∀ (links : List Url) (s : CountState),
      ((censusLoop ad nl s links).2.map Prod.fst).Nodup := by
  intro links
  induction links with
  | nil => intro s; simp [censusLoop]
  | cons url rest ih =>
    intro s
    by_cases hc : url.netloc = ad ∧ url ∉ s.foundUrls ∧ s.foundUrls.length < MAX_PAGES
    · simp only [censusLoop, if_pos hc]
      split
      · simp only [List.map_cons, List.nodup_cons]
        refine ⟨?_, ih (addUrl s url nl)⟩
        intro hmem
        rcases List.mem_map.mp hmem with ⟨p, hp, hfst⟩
        have := (censusLoop_reqs ad nl rest (addUrl s url nl) p hp).1
        apply this
        rw [hfst]
        simp [addUrl_foundUrls]
      · exact ih (addUrl s url nl)
    · simpa [censusLoop, if_neg hc] using ih s

theorem censusLoop_stoppedReason (ad : String) (nl : Nat) :
    ∀ (links : List Url) (s : CountState),
      (censusLoop ad nl s links).1.stoppedReason = s.stoppedReason := by
  intro links
  induction links with
  | nil => intro s; simp [censusLoop]
  | cons url rest ih =>
    intro s
    by_cases hc : url.netloc = ad ∧ url ∉ s.foundUrls ∧ s.foundUrls.length < MAX_PAGES
    · simp only [censusLoop, if_pos hc]
      split
      · simpa using (ih (addUrl s url nl)).trans (addUrl_stoppedReason s url nl)
      · exact (ih (addUrl s url nl)).trans (addUrl_stoppedReason s url nl)
    · simpa [censusLoop, if_neg hc] using ih s

theorem censusLoop_cap (ad : String) (nl : Nat) :
    ∀ (links : List Url) (s : CountState),
      s.foundUrls.length ≤ MAX_PAGES →
      (censusLoop ad nl s links).1.foundUrls.length ≤ MAX_PAGES := by
  intro links
  induction links with
  | nil => intro s h; simpa [censusLoop] using h
  | cons url rest ih =>
    intro s h
    by_cases hc : url.netloc = ad ∧ url ∉ s.foundUrls ∧ s.foundUrls.length < MAX_PAGES
    · simp only [censusLoop, if_pos hc]
      have h1 : (addUrl s url nl).foundUrls.length ≤ MAX_PAGES := by
        simp only [addUrl_foundUrls, List.length_append, List.length_cons, List.length_nil]
        omega
      have := ih (addUrl s url nl) h1
      split <;> simpa using this
    · simpa [censusLoop, if_neg hc] using ih s h

theorem censusLoop_CInv (ad : String) (nl : Nat) :
    ∀ (links : List Url) (s : CountState), CInv s →
      CInv (censusLoop ad nl s links).1 := by
  intro links
  induction links with
  | nil => intro s h; simpa [censusLoop] using h
  | cons url rest ih =>
    intro s h
    by_cases hc : url.netloc = ad ∧ url ∉ s.foundUrls ∧ s.foundUrls.length < MAX_PAGES
    · simp only [censusLoop, if_pos hc]
      have := ih (addUrl s url nl) (addUrl_CInv h hc.2.1 hc.2.2)
      split <;> simpa using this
    · simpa [censusLoop, if_neg hc] using ih s h

theorem censusParse_mono (ad : String) (s : CountState) (u : Url) (level : Nat)
    (links : List Url) :
    ∀ x ∈ s.foundUrls, x ∈ (censusParse ad s u level links).1.foundUrls := by
  intro x hx
  simp only [censusParse]
  by_cases h1 : MAX_PAGES ≤ s.foundUrls.length
  · simp only [if_pos h1]
    by_cases h2 : s.stoppedReason = none
    · simpa [if_pos h2] using hx
    · simpa [if_neg h2] using hx
  · simp only [if_neg h1]
    set s1 := if u ∈ s.foundUrls then s else addUrl s u level with hs1
    have hx1 : x ∈ s1.foundUrls := by
      rw [hs1]; split
      · exact hx
      · simp [addUrl_foundUrls, hx]
    by_cases h3 : s1.foundUrls.length < MAX_PAGES
    · simpa [if_pos h3] using censusLoop_mono ad (level + 1) links s1 x hx1
    · simpa [if_neg h3] using hx1

theorem censusParse_reqs (ad : String) (s : CountState) (u : Url) (level : Nat)
    (links : List Url) :
    ∀ p ∈ (censusParse ad s u level links).2.1,
      p.1 ∉ s.foundUrls ∧ p.1 ∈ (censusParse ad s u level links).1.foundUrls ∧
        p.1.netloc = ad := by
  intro p hp
  simp only [censusParse] at hp ⊢
  by_cases h1 : MAX_PAGES ≤ s.foundUrls.length
  · simp only [if_pos h1] at hp ⊢
    by_cases h2 : s.stoppedReason = none
    · simp [if_pos h2] at hp
    · simp [if_neg h2] at hp
  · simp only [if_neg h1] at hp ⊢
    set s1 := if u ∈ s.foundUrls then s else addUrl s u level with hs1
    have hsub : ∀ x ∈ s.foundUrls, x ∈ s1.foundUrls := by
      intro x hx
      rw [hs1]; split
      · exact hx
      · simp [addUrl_foundUrls, hx]
    by_cases h3 : s1.foundUrls.length < MAX_PAGES
    · simp only [if_pos h3] at hp ⊢
      rcases censusLoop_reqs ad (level + 1) links s1 p hp with ⟨hn, hm, _, hd⟩
      exact ⟨fun hx => hn (hsub p.1 hx), hm, hd⟩
    · simp [if_neg h3] at hp

theorem censusParse_reqs_nodup (ad : String) (s : CountState) (u : Url) (level : Nat)
    (links : List Url) :
    ((censusParse ad s u level links).2.1.map Prod.fst).Nodup := by
  simp only [censusParse]
  by_cases h1 : MAX_PAGES ≤ s.foundUrls.length
  · by_cases h2 : s.stoppedReason = none <;> simp [if_pos h1, h2]
  · simp only [if_neg h1]
    set s1 := if u ∈ s.foundUrls then s else addUrl s u level with hs1
    by_cases h3 : s1.foundUrls.length < MAX_PAGES
    · simpa [if_pos h3] using censusLoop_reqs_nodup ad (level + 1) links s1
    · simp [if_neg h3]

theorem censusParse_cap (ad : String) (s : CountState) (u : Url) (level : Nat)
    (links : List Url) (h : s.foundUrls.length ≤ MAX_PAGES) :
    (censusParse ad s u level links).1.foundUrls.length ≤ MAX_PAGES := by
  simp only [censusParse]
  by_cases h1 : MAX_PAGES ≤ s.foundUrls.length
  · by_cases h2 : s.stoppedReason = none <;> simp [if_pos h1, h2, h]
  · simp only [if_neg h1]
    set s1 := if u ∈ s.foundUrls then s else addUrl s u level with hs1
    have hcap1 : s1.foundUrls.length ≤ MAX_PAGES := by
      rw [hs1]; split
      · exact h
      · simp only [addUrl_foundUrls, List.length_append, List.length_cons, List.length_nil]
        omega
    by_cases h3 : s1.foundUrls.length < MAX_PAGES
    · simpa [if_pos h3] using censusLoop_cap ad (level + 1) links s1 hcap1
    · simpa [if_neg h3] using hcap1

theorem censusParse_CInv (ad : String) (s : CountState) (u : Url) (level : Nat)
    (links : List Url) (h : CInv s) :
    CInv (censusParse ad s u level links).1 := by
  simp only [censusParse]
  by_cases h1 : MAX_PAGES ≤ s.foundUrls.length
  · by_cases h2 : s.stoppedReason = none
    · simp only [if_pos h1, if_pos h2]
      exact ⟨h.idx_fst, h.idx_snd, h.cur, h.nodup, h.cap, h.lvl_sum⟩
    · simpa [if_pos h1, if_neg h2] using h
  · simp only [if_neg h1]
    set s1 := if u ∈ s.foundUrls then s else addUrl s u level with hs1
    have hinv1 : CInv s1 := by
      rw [hs1]; split
      · exact h
      · next hmem => exact addUrl_CInv h hmem (by omega)
    by_cases h3 : s1.foundUrls.length < MAX_PAGES
    · simpa [if_pos h3] using censusLoop_CInv ad (level + 1) links s1 hinv1
    · simpa [if_neg h3] using hinv1

theorem censusParse_closed_true (ad : String) (s : CountState) (u : Url) (level : Nat)
    (links : List Url) (h : (censusParse ad s u level links).2.2 = true) :
    (censusParse ad s u level links).1.stoppedReason = some capMsg ∧
      (censusParse ad s u level links).1.foundUrls = s.foundUrls ∧
      MAX_PAGES ≤ s.foundUrls.length ∧
      (censusParse ad s u level links).2.1 = [] := by
  simp only [censusParse] at h ⊢
  by_cases h1 : MAX_PAGES ≤ s.foundUrls.length
  · by_cases h2 : s.stoppedReason = none
    · simp [if_pos h1, if_pos h2, h1]
    · simp [if_pos h1, if_neg h2] at h
  · simp only [if_neg h1] at h ⊢
    set s1 := if u ∈ s.foundUrls then s else addUrl s u level with hs1
    by_cases h3 : s1.foundUrls.length < MAX_PAGES
    · simp [if_pos h3] at h
    · simp [if_neg h3] at h

theorem censusParse_closed_false (ad : String) (s : CountState) (u : Url) (level : Nat)
    (links : List Url) (h : (censusParse ad s u level links).2.2 = false) :
    (censusParse ad s u level links).1.stoppedReason = s.stoppedReason := by
  simp only [censusParse] at h ⊢
  by_cases h1 : MAX_PAGES ≤ s.foundUrls.length
  · by_cases h2 : s.stoppedReason = none
    · simp [if_pos h1, if_pos h2] at h
    · simp [if_pos h1, if_neg h2]
  · simp only [if_neg h1] at h ⊢
    set s1 := if u ∈ s.foundUrls then s else addUrl s u level with hs1
    have hsr : s1.stoppedReason = s.stoppedReason := by
      rw [hs1]; split
      · rfl
      · exact addUrl_stoppedReason s u level
    by_cases h3 : s1.foundUrls.length < MAX_PAGES
    · simp only [if_pos h3]
      exact (censusLoop_stoppedReason ad (level + 1) links s1).trans hsr
    · simpa [if_neg h3] using hsr

theorem censusRun_cap {site : Url → Option (List Url)} {ad : String} :
    ∀ (fuel : Nat) (s : CountState) (pending trace : List (Url × Nat)),
      s.foundUrls.length ≤ MAX_PAGES →
      (censusRun site ad fuel s pending trace).1.foundUrls.length ≤ MAX_PAGES := by
  intro fuel
  induction fuel with
  | zero => intro s pending trace h; simpa [censusRun] using h
  | succ n ih =>
    intro s pending trace h
    cases pending with
    | nil => simpa [censusRun] using h
    | cons head rest =>
      obtain ⟨u, level⟩ := head
      cases hsite : site u with
      | none => simpa [censusRun, hsite] using ih s rest trace h
      | some links =>
        simp only [censusRun, hsite]
        by_cases hcl : (censusParse ad s u level links).2.2 = true
        · simpa [if_pos hcl] using censusParse_cap ad s u level links h
        · simp only [Bool.not_eq_true] at hcl
          simpa [hcl] using
            ih (censusParse ad s u level links).1
              (rest ++ (censusParse ad s u level links).2.1)
              (trace ++ (censusParse ad s u level links).2.1)
              (censusParse_cap ad s u level links h)

/-- Master invariant of a census run: the representation invariant is
preserved, every url in the request trace was yielded at most once, all
traced urls are in the final found set and on the allowed domain, and the
run closes either with the default reason "finished" and no stop reason
recorded, or through CloseSpider with the cap message and exactly
MAX_PAGES found urls. -/
theorem censusRun_master {site : Url → Option (List Url)} {ad : String} :
    ∀ (fuel : Nat) {s : CountState} {pending trace : List (Url × Nat)}
      {s1 : CountState} {r : String} {tr : List (Url × Nat)},
      CInv s → s.stoppedReason = none →
      (trace.map Prod.fst).Nodup →
      (∀ p ∈ trace, p.1 ∈ s.foundUrls) →
      (∀ p ∈ trace, p.1.netloc = ad) →
      censusRun site ad fuel s pending trace = (s1, r, tr) →
      CInv s1 ∧ (tr.map Prod.fst).Nodup ∧ (∀ p ∈ tr, p.1 ∈ s1.foundUrls) ∧
        (∀ p ∈ tr, p.1.netloc = ad) ∧
        ((s1.stoppedReason = none ∧ r = "finished") ∨
          (s1.stoppedReason = some capMsg ∧ r = capMsg ∧
            s1.foundUrls.length = MAX_PAGES)) := by
  intro fuel
  induction fuel with
  | zero =>
    intro s pending trace s1 r tr hinv hr htrN htrM htrD heq
    simp only [censusRun, Prod.mk.injEq] at heq
    obtain ⟨rfl, rfl, rfl⟩ := heq
    exact ⟨hinv, htrN, htrM, htrD, Or.inl ⟨hr, rfl⟩⟩
  | succ n ih =>
    intro s pending trace s1 r tr hinv hr htrN htrM htrD heq
    cases pending with
    | nil =>
      simp only [censusRun, Prod.mk.injEq] at heq
      obtain ⟨rfl, rfl, rfl⟩ := heq
      exact ⟨hinv, htrN, htrM, htrD, Or.inl ⟨hr, rfl⟩⟩
    | cons head rest =>
      obtain ⟨u, level⟩ := head
      cases hsite : site u with
      | none =>
        simp only [censusRun, hsite] at heq
        exact ih hinv hr htrN htrM htrD heq
      | some links =>
        simp only [censusRun, hsite] at heq
        by_cases hcl : (censusParse ad s u level links).2.2 = true
        · rw [if_pos hcl] at heq
          rcases censusParse_closed_true ad s u level links hcl with ⟨hsr, hfnd, hge, _⟩
          simp only [Prod.mk.injEq] at heq
          obtain ⟨rfl, rfl, rfl⟩ := heq
          refine ⟨censusParse_CInv ad s u level links hinv, htrN, ?_, htrD,
            Or.inr ⟨hsr, ?_, ?_⟩⟩
          · intro p hp
            rw [hfnd]
            exact htrM p hp
          · rw [hsr]
            rfl
          · rw [hfnd]
            exact Nat.le_antisymm hinv.cap hge
        · simp only [Bool.not_eq_true] at hcl
          rw [if_neg (by simp [hcl])] at heq
          have hinv1 := censusParse_CInv ad s u level links hinv
          have hr1 : (censusParse ad s u level links).1.stoppedReason = none :=
            (censusParse_closed_false ad s u level links hcl).trans hr
          have hreq := censusParse_reqs ad s u level links
          have htrN1 : (((trace ++ (censusParse ad s u level links).2.1)).map Prod.fst).Nodup := by
            rw [List.map_append]
            refine List.Nodup.append htrN (censusParse_reqs_nodup ad s u level links) ?_
            intro x hx hx2
            rcases List.mem_map.mp hx with ⟨p, hp, rfl⟩
            rcases List.mem_map.mp hx2 with ⟨q, hq, hqeq⟩
            have hq1 := (hreq q hq).1
            rw [hqeq] at hq1
            exact hq1 (htrM p hp)
          have htrM1 : ∀ p ∈ trace ++ (censusParse ad s u level links).2.1,
              p.1 ∈ (censusParse ad s u level links).1.foundUrls := by
            intro p hp
            rcases List.mem_append.mp hp with hp1 | hp2
            · exact censusParse_mono ad s u level links p.1 (htrM p hp1)
            · exact (hreq p hp2).2.1
          have htrD1 : ∀ p ∈ trace ++ (censusParse ad s u level links).2.1,
              p.1.netloc = ad := by
            intro p hp
            rcases List.mem_append.mp hp with hp1 | hp2
            · exact htrD p hp1
            · exact (hreq p hp2).2.2
          exact ih hinv1 hr1 htrN1 htrM1 htrD1 heq

theorem sortByIdx_of_pairwise :
    ∀ {l : List (Nat × Url × Nat)}, l.Pairwise (fun a b => a.1 < b.1) → sortByIdx l = l := by
  intro l
  induction l with
  | nil => intro _; rfl
  | cons x xs ih =>
    intro h
    show insertByIdx x (sortByIdx xs) = x :: xs
    rw [ih (List.Pairwise.of_cons h)]
    cases xs with
    | nil => rfl
    | cons y ys =>
      have hx : x.1 < y.1 := (List.pairwise_cons.mp h).1 y (List.mem_cons_self y ys)
      simp [insertByIdx, Nat.le_of_lt hx]

/-- Helper bundling `censusRun_master` for a complete crawl from the seed. -/
theorem censusCrawl_master (site : Url → Option (List Url)) (seed : Url) (fuel : Nat) :
    CInv (censusCrawl site seed fuel).1 ∧
      ((censusCrawl site seed fuel).2.2.map Prod.fst).Nodup ∧
      (∀ p ∈ (censusCrawl site seed fuel).2.2, p.1 ∈ (censusCrawl site seed fuel).1.foundUrls) ∧
      (∀ p ∈ (censusCrawl site seed fuel).2.2, p.1.netloc = seed.netloc) ∧
      (((censusCrawl site seed fuel).1.stoppedReason = none ∧
          (censusCrawl site seed fuel).2.1 = "finished") ∨
        ((censusCrawl site seed fuel).1.stoppedReason = some capMsg ∧
          (censusCrawl site seed fuel).2.1 = capMsg ∧
          (censusCrawl site seed fuel).1.foundUrls.length = MAX_PAGES)) := by
  exact censusRun_master fuel (censusInit_CInv seed) rfl (by simp) (by simp) (by simp) rfl

/-- C8: for any census crawl, the discovery indices attached to
`ordered_urls` are exactly the contiguous range 1..N in ascending order,
and the urls listed are exactly the visited urls, each exactly once. -/
theorem census_ordered_urls_contiguous (site : Url → Option (List Url)) (seed : Url)
    (fuel : Nat) :
    (censusResult site seed fuel).orderedUrls.map (fun t => t.1) =
        List.range' 1 (censusResult site seed fuel).totalUniqueUrls ∧
      (censusResult site seed fuel).orderedUrls.map (fun t => t.2.1) =
        (censusCrawl site seed fuel).1.foundUrls ∧
      (censusCrawl site seed fuel).1.foundUrls.Nodup := by
  obtain ⟨hinv, -, -, -, -⟩ := censusCrawl_master site seed fuel
  have hpair : (((censusCrawl site seed fuel).1.urlIndex.map
      fun p => (p.2, p.1, lookupD p.1 (censusCrawl site seed fuel).1.urlLevels)).Pairwise
      fun a b => a.1 < b.1) := by
    rw [List.pairwise_map]
    have hlt := List.pairwise_lt_range' 1 (censusCrawl site seed fuel).1.foundUrls.length
    rw [← hinv.idx_snd, List.pairwise_map] at hlt
    exact hlt
  have hord : (censusResult site seed fuel).orderedUrls =
      (censusCrawl site seed fuel).1.urlIndex.map
        fun p => (p.2, p.1, lookupD p.1 (censusCrawl site seed fuel).1.urlLevels) := by
    show sortByIdx _ = _
    exact sortByIdx_of_pairwise hpair
  refine ⟨?_, ?_, hinv.nodup⟩
  · rw [hord, List.map_map]
    have hcomp : ((fun t : Nat × Url × Nat => t.1) ∘
        fun p : Url × Nat => (p.2, p.1, lookupD p.1 (censusCrawl site seed fuel).1.urlLevels)) =
        Prod.snd := rfl
    rw [hcomp, hinv.idx_snd]
    rfl
  · rw [hord, List.map_map]
    have hcomp : ((fun t : Nat × Url × Nat => t.2.1) ∘
        fun p : Url × Nat => (p.2, p.1, lookupD p.1 (censusCrawl site seed fuel).1.urlLevels)) =
        Prod.fst := rfl
    rw [hcomp, hinv.idx_fst]

/-- C7: the census visited-set size never exceeds the fixed cap of 1000:
each parse step preserves the bound, and every complete crawl ends under
it. -/
theorem census_cap_never_exceeded :
    (∀ (ad : String) (s : CountState) (u : Url) (level : Nat) (links : List Url),
        s.foundUrls.length ≤ MAX_PAGES →
        (censusParse ad s u level links).1.foundUrls.length ≤ MAX_PAGES) ∧
      (∀ (site : Url → Option (List Url)) (seed : Url) (fuel : Nat),
        (censusCrawl site seed fuel).1.foundUrls.length ≤ MAX_PAGES) := by
  constructor
  · exact fun ad s u level links h => censusParse_cap ad s u level links h
  · intro site seed fuel
    exact censusRun_cap fuel (censusInit seed) [(seed, 0)] [] (by simp [censusInit])

/-- C7 witness: `census_cap_never_exceeded` applied to a concrete state and crawl. -/
theorem census_cap_never_exceeded_witness :
    (censusInit seed0).foundUrls.length ≤ MAX_PAGES ∧
      (censusParse "example.com" (censusInit seed0) seed0 0 [child1]).1.foundUrls.length ≤
        MAX_PAGES :=
  ⟨by decide, census_cap_never_exceeded.1 "example.com" (censusInit seed0) seed0 0 [child1]
    (by decide)⟩

/-- C10: in census mode a request is yielded only for a url inserted into
the found set during that very parse step (it was absent before the step
and present after it), and across a whole crawl no url is ever requested
twice: the request trace has no duplicate urls and every traced url is in
the final found set. -/
theorem census_fetch_once :
    (∀ (ad : String) (s : CountState) (u : Url) (level : Nat) (links : List Url),
        ∀ p ∈ (censusParse ad s u level links).2.1,
          p.1 ∉ s.foundUrls ∧ p.1 ∈ (censusParse ad s u level links).1.foundUrls) ∧
      (∀ (site : Url → Option (List Url)) (seed : Url) (fuel : Nat),
        ((censusCrawl site seed fuel).2.2.map Prod.fst).Nodup ∧
          ∀ p ∈ (censusCrawl site seed fuel).2.2,
            p.1 ∈ (censusCrawl site seed fuel).1.foundUrls) := by
  constructor
  · intro ad s u level links p hp
    exact ⟨(censusParse_reqs ad s u level links p hp).1,
      (censusParse_reqs ad s u level links p hp).2.1⟩
  · intro site seed fuel
    obtain ⟨-, hN, hM, -, -⟩ := censusCrawl_master site seed fuel
    exact ⟨hN, hM⟩

/-- C10 witness for `census_fetch_once`: the request for `child1` yielded while
parsing the seed page of `siteB` is for a url that was just inserted. -/
theorem census_fetch_once_witness :
    (child1, 1) ∈ (censusParse "example.com" (censusInit seed0) seed0 0 [child1]).2.1 ∧
      child1 ∉ (censusInit seed0).foundUrls ∧
      child1 ∈ (censusParse "example.com" (censusInit seed0) seed0 0 [child1]).1.foundUrls :=
  ⟨by decide,
    (census_fetch_once.1 "example.com" (censusInit seed0) seed0 0 [child1] (child1, 1)
      (by decide)).1,
    (census_fetch_once.1 "example.com" (censusInit seed0) seed0 0 [child1] (child1, 1)
      (by decide)).2⟩

/-- C1 counterexample: the one-page census crawl, which would end by
frontier exhaustion, produces no result at all — spider construction
raises NameError because the name `time` is never imported — so in
particular no result whose reason is "Completed scanning all available
pages" exists for this input. -/
theorem census_exhaustion_reason_cex :
    censusCrawlE site0 seed0 4 = Except.error (PyError.nameError "time") ∧
      ¬ ∃ stats : CensusStats, censusCrawlE site0 seed0 4 = Except.ok stats ∧
        stats.reason = "Completed scanning all available pages" := by
  refine ⟨rfl, ?_⟩
  rintro ⟨stats, hok, -⟩
  exact Except.noConfusion hok

/-- C1 amended: census mode never produces a result: for every site graph,
seed and fuel the executed crawl stops with NameError at spider
construction (`time.time()` with `time` unimported), so no reason field is
ever emitted.  In the crawl state machine as written past that crash, the
stop reason recorded by parse is the cap message exactly when CloseSpider
fires — with exactly 1000 urls found — and an exhausted run closes with
the engine default reason "finished"; the sentence "Completed scanning all
available pages" is neither of these (it occurs only in a log call). -/
theorem census_reason_amended (site : Url → Option (List Url)) (seed : Url) (fuel : Nat) :
    censusCrawlE site seed fuel = Except.error (PyError.nameError "time") ∧
      (((censusCrawl site seed fuel).1.stoppedReason = some capMsg ∧
          (censusCrawl site seed fuel).2.1 = capMsg ∧
          (censusCrawl site seed fuel).1.foundUrls.length = MAX_PAGES) ∨
        ((censusCrawl site seed fuel).1.stoppedReason = none ∧
          (censusCrawl site seed fuel).2.1 = "finished")) ∧
      capMsg ≠ "Completed scanning all available pages" ∧
      "finished" ≠ "Completed scanning all available pages" := by
  refine ⟨rfl, ?_, by decide, by decide⟩
  obtain ⟨-, -, -, -, hend⟩ := censusCrawl_master site seed fuel
  rcases hend with h | h
  · exact Or.inr h
  · exact Or.inl h

theorem sum_map_div (n : ℚ) :
    ∀ l : List (Nat × Nat),
      (l.map fun p => ((p.2 : ℚ) / n) * 100).sum =
        (((l.map Prod.snd).sum : Nat) : ℚ) / n * 100 := by
  intro l
  induction l with
  | nil => simp
  | cons p rest ih =>
    simp only [List.map_cons, List.sum_cons, ih]
    push_cast
    ring

/-- C2 counterexample: the one-page census crawl produces no result — the
spider crashes with NameError before any statistics are built — so no
produced percentages sum to 100 at this input; moreover the percentage
formula of spider_closed line 132 applied to the level counts the crawl
logic records here sums to 200, not 100 (the seed is pre-counted at level
0 in __init__ and counted again on its visit). -/
theorem census_percentage_sum_cex :
    censusCrawlE site0 seed0 4 = Except.error (PyError.nameError "time") ∧
      (run0.1.levelCounts.map fun p =>
        ((p.2 : ℚ) / (run0.1.foundUrls.length : ℚ)) * 100).sum = 200 ∧
      (200 : ℚ) ≠ 100 := by
  refine ⟨rfl, ?_, by norm_num⟩
  have h : run0.1.levelCounts = [(0, 2)] := by decide
  have hl : run0.1.foundUrls.length = 1 := by decide
  rw [h, hl]
  norm_num

/-- C2 amended: no census result is ever produced — the executed crawl
raises NameError before spider_closed could build level_statistics — and
the level counts that the crawl state machine records always sum to one
more than the number of found urls (the seed level is counted in __init__
and again on the seed visit), so the percentage formula of spider_closed
line 132 applied to them sums to 100·(N+1)/N for positive N, never to
100. -/
theorem census_percentage_sum_amended (site : Url → Option (List Url)) (seed : Url)
    (fuel : Nat) (_hpos : 0 < (censusCrawl site seed fuel).1.foundUrls.length) :
    censusCrawlE site seed fuel = Except.error (PyError.nameError "time") ∧
      ((censusCrawl site seed fuel).1.levelCounts.map Prod.snd).sum =
        (censusCrawl site seed fuel).1.foundUrls.length + 1 ∧
      ((censusCrawl site seed fuel).1.levelCounts.map fun p =>
          ((p.2 : ℚ) / ((censusCrawl site seed fuel).1.foundUrls.length : ℚ)) * 100).sum =
        100 * (((censusCrawl site seed fuel).1.foundUrls.length : ℚ) + 1) /
          ((censusCrawl site seed fuel).1.foundUrls.length : ℚ) := by
  obtain ⟨hinv, -, -, -, -⟩ := censusCrawl_master site seed fuel
  refine ⟨rfl, hinv.lvl_sum, ?_⟩
  rw [sum_map_div, hinv.lvl_sum]
  push_cast
  ring

/-- C2 witness: `census_percentage_sum_amended` applied to the one-page
crawl, whose state machine finds one url. -/
theorem census_percentage_sum_amended_witness :
    0 < (censusCrawl site0 seed0 4).1.foundUrls.length ∧
      ((censusCrawl site0 seed0 4).1.levelCounts.map Prod.snd).sum =
        (censusCrawl site0 seed0 4).1.foundUrls.length + 1 :=
  ⟨by decide, (census_percentage_sum_amended site0 seed0 4 (by decide)).2.1⟩

/-- C3 counterexample: on the single-page site the census crawl yields no
result whatsoever — CountSpider.__init__ raises NameError — so in
particular no result with the claimed fields (total 1, max level 0, level
statistics count 1 / 100 percent, completion-sentence reason) exists. -/
theorem census_single_page_cex :
    censusCrawlE site0 seed0 4 = Except.error (PyError.nameError "time") ∧
      ¬ ∃ stats : CensusStats, censusCrawlE site0 seed0 4 = Except.ok stats ∧
        stats.totalUniqueUrls = 1 ∧ stats.maxLevel = 0 ∧
        stats.levelStats = [(0, 1, 100)] ∧
        stats.reason = "Completed scanning all available pages" := by
  refine ⟨rfl, ?_⟩
  rintro ⟨stats, hok, -⟩
  exact Except.noConfusion hok

/-- C3 amended: a census crawl of a single page with no outbound links
produces no result — spider construction raises NameError because `time`
is unimported.  The crawl state machine as written would record exactly
one found url, maximum level 0, a level-0 count of 2 (the seed is
pre-counted at level 0 in __init__ and counted again when visited), and
close with the engine default reason "finished". -/
theorem census_single_page_amended :
    censusCrawlE site0 seed0 4 = Except.error (PyError.nameError "time") ∧
      run0.1.foundUrls.length = 1 ∧ run0.1.maxLevelFound = 0 ∧
      run0.1.levelCounts = [(0, 2)] ∧ run0.2.1 = "finished" :=
  ⟨rfl, by decide, by decide, by decide, by decide⟩

/-! ## Invariants of the content spider state -/

/-- Representation invariant of the FastSpider state relative to the site
graph and the page limit: content files are named page_1.txt .. page_N.txt
consecutively, index numbers are the contiguous range 1..N, index entries
correspond one-to-one with the visited urls, the visited set has no
duplicates and never outgrows the limit, and every visited url is a page
whose fetch and extraction both succeeded. -/
structure FInv (site : Url → Option (Option ContentPage)) (pl : Nat) (s : FastState) : Prop where
  files_eq : s.files = (List.range s.pagesCrawled).map fun i => pageFileName (i + 1)
  idx_num : s.indexEntries.map (fun e => e.1) = List.range' 1 s.pagesCrawled
  idx_url : s.indexEntries.map (fun e => e.2.2.1) = s.visitedUrls
  nodup : s.visitedUrls.Nodup
  cap : s.pagesCrawled ≤ pl
  visited_ok : ∀ x ∈ s.visitedUrls, ∃ c, site x = some (some c)

theorem fastInit_FInv (site : Url → Option (Option ContentPage)) (pl : Nat) :
    FInv site pl fastInit := by
  constructor <;> simp [fastInit]

theorem FInv_errorLog {site : Url → Option (Option ContentPage)} {pl : Nat} {s : FastState}
    (h : FInv site pl s) (e : List String) :
    FInv site pl { s with errorLog := e } :=
  ⟨h.files_eq, h.idx_num, h.idx_url, h.nodup, h.cap, h.visited_ok⟩

theorem fastParse_spec {site : Url → Option (Option ContentPage)} {pl : Nat} {ad : String}
    {s : FastState} {u : Url} {pg : Option ContentPage}
    (hinv : FInv site pl s) (hpg : site u = some pg) :
    FInv site pl (fastParse pl ad s u pg).1 ∧
      ((fastParse pl ad s u pg).2.2 = true →
        (fastParse pl ad s u pg).1 = s ∧ pl ≤ s.pagesCrawled) ∧
      (∀ l ∈ (fastParse pl ad s u pg).2.1, strIn ad l.netloc = true) := by
  simp only [fastParse]
  by_cases h1 : pl ≤ s.pagesCrawled
  · simp only [if_pos h1]
    exact ⟨hinv, fun _ => ⟨by trivial, h1⟩, by simp⟩
  · simp only [if_neg h1]
    by_cases h2 : u ∈ s.visitedUrls
    · simp only [if_pos h2]
      exact ⟨hinv, by simp, by simp⟩
    · simp only [if_neg h2]
      cases pg with
      | none =>
        refine ⟨FInv_errorLog hinv _, by simp, by simp⟩
      | some content =>
        refine ⟨?_, by simp, ?_⟩
        · constructor
          · simp only [List.range_succ, List.map_append, List.map_cons, List.map_nil]
            rw [hinv.files_eq]
          · simp only [List.map_append, List.map_cons, List.map_nil]
            rw [hinv.idx_num, List.range'_concat]
            simp [Nat.add_comm]
          · simp only [List.map_append, List.map_cons, List.map_nil]
            rw [hinv.idx_url]
          · simp [List.nodup_append, hinv.nodup, h2]
          · simp only []
            omega
          · intro x hx
            rcases List.mem_append.mp hx with hx1 | hx2
            · exact hinv.visited_ok x hx1
            · rcases List.mem_singleton.mp hx2 with rfl
              exact ⟨content, hpg⟩
        · intro l hl
          by_cases h3 : s.pagesCrawled + 1 < pl
          · simp only [if_pos h3] at hl
            rcases List.mem_filter.mp hl with ⟨-, hcond⟩
            rw [Bool.and_eq_true] at hcond
            exact hcond.2
          · simp only [if_neg h3] at hl
            exact absurd hl (List.not_mem_nil l)

theorem fastRun_master {site : Url → Option (Option ContentPage)} {pl : Nat} {ad : String} :
    ∀ (fuel : Nat) {s : FastState} {pending trace : List Url} {s1 : FastState} {r : String}
      {tr : List Url},
      FInv site pl s →
      (∀ l ∈ trace, strIn ad l.netloc = true) →
      fastRun site pl ad fuel s pending trace = (s1, r, tr) →
      FInv site pl s1 ∧ (∀ l ∈ tr, strIn ad l.netloc = true) ∧
        (r = "finished" ∨ (r = "Reached page limit" ∧ s1.pagesCrawled = pl)) := by
  intro fuel
  induction fuel with
  | zero =>
    intro s pending trace s1 r tr hinv htr heq
    simp only [fastRun, Prod.mk.injEq] at heq
    obtain ⟨rfl, rfl, rfl⟩ := heq
    exact ⟨hinv, htr, Or.inl rfl⟩
  | succ n ih =>
    intro s pending trace s1 r tr hinv htr heq
    cases pending with
    | nil =>
      simp only [fastRun, Prod.mk.injEq] at heq
      obtain ⟨rfl, rfl, rfl⟩ := heq
      exact ⟨hinv, htr, Or.inl rfl⟩
    | cons u rest =>
      cases hsite : site u with
      | none =>
        simp only [fastRun, hsite] at heq
        exact ih (FInv_errorLog hinv _) htr heq
      | some pg =>
        simp only [fastRun, hsite] at heq
        obtain ⟨hinv1, hcl, hreq⟩ := fastParse_spec hinv hsite
        by_cases hclosed : (fastParse pl ad s u pg).2.2 = true
        · rw [if_pos hclosed] at heq
          simp only [Prod.mk.injEq] at heq
          obtain ⟨rfl, rfl, rfl⟩ := heq
          obtain ⟨hs, hge⟩ := hcl hclosed
          refine ⟨hinv1, htr, Or.inr ⟨rfl, ?_⟩⟩
          rw [hs]
          exact Nat.le_antisymm hinv.cap hge
        · simp only [Bool.not_eq_true] at hclosed
          rw [if_neg (by simp [hclosed])] at heq
          have htr1 : ∀ l ∈ trace ++ (fastParse pl ad s u pg).2.1,
              strIn ad l.netloc = true := by
            intro l hl
            rcases List.mem_append.mp hl with hl1 | hl2
            · exact htr l hl1
            · exact hreq l hl2
          exact ih hinv1 htr1 heq

/-- Helper bundling `fastRun_master` for a complete crawl from the seed. -/
theorem fastCrawl_master (site : Url → Option (Option ContentPage)) (pl : Nat) (seed : Url)
    (fuel : Nat) :
    FInv site pl (fastCrawl site pl seed fuel).1 ∧
      (∀ l ∈ (fastCrawl site pl seed fuel).2.2, strIn seed.netloc l.netloc = true) ∧
      ((fastCrawl site pl seed fuel).2.1 = "finished" ∨
        ((fastCrawl site pl seed fuel).2.1 = "Reached page limit" ∧
          (fastCrawl site pl seed fuel).1.pagesCrawled = pl)) := by
  exact fastRun_master fuel (fastInit_FInv site pl) (by simp) rfl

/-- C4 counterexample: in the crawl of `fsite0` the seed page is fetched
but its extraction fails; the failure is logged and the crawl ends
normally, yet the seed url is NOT marked visited, contradicting the claim
that the url is still marked visited. -/
theorem fast_extraction_visited_cex :
    frun0.1.errorLog ≠ [] ∧ seed0 ∉ frun0.1.visitedUrls ∧ frun0.2.1 = "finished" := by
  refine ⟨?_, by decide, by decide⟩
  intro h
  exact absurd h (by decide)

/-- C4 amended: when content extraction fails for a fetched page, the
failure is appended to the error log and nothing else changes — no file,
no index entry, no request, and in particular the url is NOT added to the
visited set; the crawl continues.  Globally, a url whose page always fails
extraction is never visited and never indexed, and the crawl still
terminates with one of the two normal reasons. -/
theorem fast_extraction_failure_amended :
    (∀ (pl : Nat) (ad : String) (s : FastState) (u : Url),
        ¬ pl ≤ s.pagesCrawled → u ∉ s.visitedUrls →
        fastParse pl ad s u none =
          ({ s with errorLog := s.errorLog ++
              ["Content extraction error on " ++ u.netloc ++ u.path] }, ([], false))) ∧
      (∀ (site : Url → Option (Option ContentPage)) (pl : Nat) (seed : Url) (fuel : Nat),
        (∀ u, site u = some none →
          u ∉ (fastCrawl site pl seed fuel).1.visitedUrls ∧
            ∀ e ∈ (fastCrawl site pl seed fuel).1.indexEntries, e.2.2.1 ≠ u) ∧
          ((fastCrawl site pl seed fuel).2.1 = "finished" ∨
            (fastCrawl site pl seed fuel).2.1 = "Reached page limit")) := by
  constructor
  · intro pl ad s u h1 h2
    simp only [fastParse, if_neg h1, if_neg h2]
  · intro site pl seed fuel
    obtain ⟨hinv, -, hend⟩ := fastCrawl_master site pl seed fuel
    constructor
    · intro u hu
      have hnv : u ∉ (fastCrawl site pl seed fuel).1.visitedUrls := by
        intro hmem
        rcases hinv.visited_ok u hmem with ⟨c, hc⟩
        rw [hu] at hc
        simp at hc
      refine ⟨hnv, ?_⟩
      intro e he heq
      apply hnv
      rw [← hinv.idx_url]
      exact List.mem_map.mpr ⟨e, he, heq⟩
    · rcases hend with h | ⟨h, -⟩
      · exact Or.inl h
      · exact Or.inr h

/-- C4 witness: `fast_extraction_failure_amended` applied at the initial state. -/
theorem fast_extraction_failure_amended_witness :
    (¬ (5 : Nat) ≤ fastInit.pagesCrawled) ∧ seed0 ∉ fastInit.visitedUrls ∧
      fastParse 5 "example.com" fastInit seed0 none =
        ({ fastInit with errorLog := fastInit.errorLog ++
            ["Content extraction error on " ++ seed0.netloc ++ seed0.path] }, ([], false)) :=
  ⟨by decide, by decide,
    fast_extraction_failure_amended.1 5 "example.com" fastInit seed0 (by decide) (by decide)⟩

/-- C5 counterexample: in the `fsite1` content crawl a request is yielded
(and the page fetched) for `evil0`, whose host "evilexample.com" is not the
allowed domain "example.com" — the content spider only checks substring
containment of the allowed domain in the link host. -/
theorem fast_domain_cex :
    evil0 ∈ frun1.2.2 ∧ evil0.netloc ≠ seed0.netloc := by
  refine ⟨by decide, ?_⟩
  intro h
  exact absurd h (by decide)

/-- C5 amended: the census spider enqueues only urls whose host equals the
allowed domain, but the content spider enqueues any url whose host merely
contains the allowed domain as a substring, so an enqueued content-mode url
need not have host equal to the allowed domain. -/
theorem domain_filter_amended :
    (∀ (site : Url → Option (List Url)) (seed : Url) (fuel : Nat),
        ∀ p ∈ (censusCrawl site seed fuel).2.2, p.1.netloc = seed.netloc) ∧
      (∀ (site : Url → Option (Option ContentPage)) (pl : Nat) (seed : Url) (fuel : Nat),
        ∀ u ∈ (fastCrawl site pl seed fuel).2.2, strIn seed.netloc u.netloc = true) := by
  constructor
  · intro site seed fuel p hp
    exact (censusCrawl_master site seed fuel).2.2.2.1 p hp
  · intro site pl seed fuel u hu
    exact (fastCrawl_master site pl seed fuel).2.1 u hu

/-- C5 witness: `domain_filter_amended` applied to concrete crawls of `siteB`
and `fsite1`. -/
theorem domain_filter_amended_witness :
    ((child1, 1) ∈ (censusCrawl siteB seed0 6).2.2 ∧ child1.netloc = seed0.netloc) ∧
      (evil0 ∈ (fastCrawl fsite1 5 seed0 6).2.2 ∧
        strIn seed0.netloc evil0.netloc = true) :=
  ⟨⟨by decide, domain_filter_amended.1 siteB seed0 6 (child1, 1) (by decide)⟩,
    ⟨by decide, domain_filter_amended.2 fsite1 5 seed0 6 evil0 (by decide)⟩⟩

/-- C6 counterexample: with page_limit 1 on a one-page site the bound is
hit (pages_crawled = 1), but no further response arrives, so the crawl
closes with the engine default reason "finished" rather than
"Reached page limit". -/
theorem fast_page_limit_cex :
    frun2.1.pagesCrawled = 1 ∧ frun2.2.1 = "finished" ∧
      frun2.2.1 ≠ "Reached page limit" := by
  refine ⟨by decide, by decide, ?_⟩
  intro h
  exact absurd h (by decide)

/-- C6 amended: the number of persisted pages never exceeds page_limit, and
the reason "Reached page limit" is reported only when the bound was hit —
but hitting the bound does not guarantee that reason: it is reported only
when a further response is parsed after the bound is reached, and otherwise
the crawl closes as "finished". -/
theorem fast_page_limit_amended (site : Url → Option (Option ContentPage)) (pl : Nat)
    (seed : Url) (fuel : Nat) :
    (fastCrawl site pl seed fuel).1.pagesCrawled ≤ pl ∧
      ((fastCrawl site pl seed fuel).2.1 = "Reached page limit" →
        (fastCrawl site pl seed fuel).1.pagesCrawled = pl) ∧
      ((fastCrawl site pl seed fuel).2.1 = "finished" ∨
        (fastCrawl site pl seed fuel).2.1 = "Reached page limit") := by
  obtain ⟨hinv, -, hend⟩ := fastCrawl_master site pl seed fuel
  refine ⟨hinv.cap, ?_, ?_⟩
  · intro hr
    rcases hend with h | ⟨-, h⟩
    · rw [hr] at h
      exact absurd h (by decide)
    · exact h
  · rcases hend with h | ⟨h, -⟩
    · exact Or.inl h
    · exact Or.inr h

/-- C6 witness: `fast_page_limit_amended` applied to the `fsite3` crawl with
page_limit 2, where close_spider does fire. -/
theorem fast_page_limit_amended_witness :
    (fastCrawl fsite3 2 seed0 8).2.1 = "Reached page limit" ∧
      (fastCrawl fsite3 2 seed0 8).1.pagesCrawled = 2 :=
  ⟨by decide, (fast_page_limit_amended fsite3 2 seed0 8).2.1 (by decide)⟩

/-- C9: in content mode the persisted artifacts stay in lockstep with the
page counter: after any crawl the content files are exactly
page_1.txt .. page_N.txt in order where N = pages_crawled, index entries
correspond one-to-one with the visited urls (so each distinct url
contributes at most one file and one index entry), and the visited list has
no duplicates. -/
theorem fast_unique_files (site : Url → Option (Option ContentPage)) (pl : Nat)
    (seed : Url) (fuel : Nat) :
    (fastCrawl site pl seed fuel).1.files =
        (List.range (fastCrawl site pl seed fuel).1.pagesCrawled).map
          (fun i => pageFileName (i + 1)) ∧
      (fastCrawl site pl seed fuel).1.indexEntries.map (fun e => e.2.2.1) =
        (fastCrawl site pl seed fuel).1.visitedUrls ∧
      (fastCrawl site pl seed fuel).1.visitedUrls.Nodup ∧
      (fastCrawl site pl seed fuel).1.files.length =
        (fastCrawl site pl seed fuel).1.pagesCrawled ∧
      (fastCrawl site pl seed fuel).1.indexEntries.length =
        (fastCrawl site pl seed fuel).1.pagesCrawled := by
  obtain ⟨hinv, -, -⟩ := fastCrawl_master site pl seed fuel
  refine ⟨hinv.files_eq, hinv.idx_url, hinv.nodup, ?_, ?_⟩
  · rw [hinv.files_eq]
    simp
  · have := congrArg List.length hinv.idx_num
    simpa using this


end WebCrawler
